import Mathlib

set_option maxRecDepth 100000

/-!
Verification of the bitso-mcp core: the authenticated, cached API client
(`src/client.ts`) and the paginated export aggregator
(`src/tools/bitso-tools.ts`).  Each definition is a shallow embedding of the
corresponding TypeScript function; clocks and the HTTP transport are passed
explicitly, machine-level effects (logging, file writes) are dropped as they
do not influence any verified state.
-/

namespace BitsoMcp

/-! ## Data model (src/types.ts) -/

/-- Funding record (`src/types.ts`).  `details` is an opaque key-value map,
modelled as an association list of strings. -/
structure Funding where
  fid : String
  status : String
  created_at : String
  currency : String
  method : String
  amount : String
  details : List (String × String)
deriving DecidableEq

/-- Withdrawal record (`src/types.ts`). -/
structure Withdrawal where
  wid : String
  status : String
  created_at : String
  currency : String
  method : String
  amount : String
  asset : Option String
  network : Option String
  protocol : Option String
  details : List (String × String)
  origin_id : Option String
deriving DecidableEq

/-- List-response envelope for fundings (`src/types.ts`).  The declared type
has a mandatory `payload`, but the runtime code guards against a missing
payload (`!response.payload`, `payload?.length`), so it is `Option` here. -/
structure FundingListResponse where
  success : Bool
  payload : Option (List Funding)
deriving DecidableEq

/-- List-response envelope for withdrawals (`src/types.ts`). -/
structure WithdrawalListResponse where
  success : Bool
  payload : Option (List Withdrawal)
deriving DecidableEq

/-- Single-entity envelope `{ success, payload }` used by `getWithdrawal` and
`getFunding` (`src/client.ts`). -/
structure SingleEnvelope (α : Type) where
  success : Bool
  payload : α
deriving DecidableEq

/-! ## TTL cache (src/client.ts lines 55-76)

The client `Map<string, { data, expires }>` is modelled observationally as
an association list with unique keys: `cacheSet` overwrites unconditionally,
`cacheDelete` removes the key, `cacheFind` is lookup.  All times are epoch
milliseconds as `Nat`. -/

/-- One cache entry `{ data, expires }`. -/
structure CacheEntry (α : Type) where
  data : α
  expires : Nat
deriving DecidableEq

/-- A cache state: association list keyed by string. -/
def CacheMap (α : Type) : Type := List (String × CacheEntry α)

instance (α : Type) [DecidableEq α] : DecidableEq (CacheMap α) :=
  inferInstanceAs (DecidableEq (List (String × CacheEntry α)))

/-- Lookup of `Map.get`. -/
def cacheFind {α : Type} (c : CacheMap α) (k : String) : Option (CacheEntry α) :=
  match c with
  | [] => none
  | (k', e) :: rest => if k' = k then some e else cacheFind rest k

/-- Model of `Map.delete` (observational: removes every binding of the key). -/
def cacheDelete {α : Type} (c : CacheMap α) (k : String) : CacheMap α :=
  c.filter (fun p => p.1 ≠ k)

/-- Model of `Map.set`: overwrite any prior binding of the key unconditionally. -/
def cacheSet {α : Type} (c : CacheMap α) (k : String) (e : CacheEntry α) : CacheMap α :=
  (k, e) :: cacheDelete c k

/-- Embedding of `getCachedData` (`src/client.ts` lines 59-70): return the stored data if
it is present and unexpired (`cached.expires > Date.now()`); delete the entry
and return `none` if it is present but expired; otherwise `none`.  Returns
the value together with the possibly-updated cache. -/
def getCachedData {α : Type} (c : CacheMap α) (key : String) (now : Nat) :
    Option α × CacheMap α :=
  match cacheFind c key with
  | some cached => if now < cached.expires then (some cached.data, c)
                   else (none, cacheDelete c key)
  | none => (none, c)

/-- Embedding of `setCachedData` (`src/client.ts` lines 72-76):
`expires = Date.now() + cacheTtlSeconds * 1000`. -/
def setCachedData {α : Type} (c : CacheMap α) (key : String) (data : α)
    (now ttlSeconds : Nat) : CacheMap α :=
  cacheSet c key { data := data, expires := now + ttlSeconds * 1000 }

/-- Embedding of `getCacheKey` (`src/client.ts` lines 55-57):
computed as url + JSON.stringify(params) with the stringify elided when
params is undefined, taking the serialized
params as an optional string. -/
def getCacheKey (url : String) (params : Option String) : String :=
  url ++ params.getD ""

/-! ## HMAC-SHA256 (model of the Node crypto hmac with the sha256 digest)

The client delegates the digest to the Node crypto library; it is modelled here
by a full executable SHA-256 (FIPS 180-4) over byte lists, with 32-bit words
represented as `Nat` reduced mod `2^32`. -/

/-- Truncate to a 32-bit word. -/
def w32 (n : Nat) : Nat := n % 4294967296

/-- 32-bit addition. -/
def add32 (a b : Nat) : Nat := w32 (a + b)

/-- Right rotation of a 32-bit word by `n` bits. -/
def rotr32 (n x : Nat) : Nat := w32 ((x >>> n) ||| (x <<< (32 - n)))

/-- SHA-256 Ch function. -/
def shaCh (x y z : Nat) : Nat := (x &&& y) ^^^ ((x ^^^ 4294967295) &&& z)

/-- SHA-256 Maj function. -/
def shaMaj (x y z : Nat) : Nat := (x &&& y) ^^^ (x &&& z) ^^^ (y &&& z)

/-- SHA-256 Σ0. -/
def shaBigSigma0 (x : Nat) : Nat := rotr32 2 x ^^^ rotr32 13 x ^^^ rotr32 22 x

/-- SHA-256 Σ1. -/
def shaBigSigma1 (x : Nat) : Nat := rotr32 6 x ^^^ rotr32 11 x ^^^ rotr32 25 x

/-- SHA-256 σ0. -/
def shaSmallSigma0 (x : Nat) : Nat := rotr32 7 x ^^^ rotr32 18 x ^^^ (x >>> 3)

/-- SHA-256 σ1. -/
def shaSmallSigma1 (x : Nat) : Nat := rotr32 17 x ^^^ rotr32 19 x ^^^ (x >>> 10)

/-- SHA-256 round constants (FIPS 180-4 section 4.2.2), in decimal. -/
def sha256K : List Nat :=
  [1116352408, 1899447441, 3049323471, 3921009573, 961987163,
   1508970993, 2453635748, 2870763221, 3624381080, 310598401,
   607225278, 1426881987, 1925078388, 2162078206, 2614888103,
   3248222580, 3835390401, 4022224774, 264347078, 604807628,
   770255983, 1249150122, 1555081692, 1996064986, 2554220882,
   2821834349, 2952996808, 3210313671, 3336571891, 3584528711,
   113926993, 338241895, 666307205, 773529912, 1294757372,
   1396182291, 1695183700, 1986661051, 2177026350, 2456956037,
   2730485921, 2820302411, 3259730800, 3345764771, 3516065817,
   3600352804, 4094571909, 275423344, 430227734, 506948616,
   659060556, 883997877, 958139571, 1322822218, 1537002063,
   1747873779, 1955562222, 2024104815, 2227730452, 2361852424,
   2428436474, 2756734187, 3204031479, 3329325298]

/-- SHA-256 initial hash value (FIPS 180-4 section 5.3.3), in decimal. -/
def sha256H0 : List Nat :=
  [1779033703, 3144134277, 1013904242, 2773480762,
   1359893119, 2600822924, 528734635, 1541459225]

/-- Big-endian rendering of `n` into `len` bytes. -/
def toBytesBE (len n : Nat) : List Nat :=
  (List.range len).map (fun i => (n >>> (8 * (len - 1 - i))) % 256)

/-- SHA-256 message padding: append `0x80`, zeros to 56 mod 64, and the
bit length as 8 big-endian bytes. -/
def sha256Pad (msg : List Nat) : List Nat :=
  let l := msg.length
  let zeros := (119 - l % 64) % 64
  msg ++ 128 :: List.replicate zeros 0 ++ toBytesBE 8 (l * 8)

/-- Group bytes into big-endian 32-bit words. -/
def bytesToWords : List Nat → List Nat
  | b0 :: b1 :: b2 :: b3 :: rest =>
      (((b0 <<< 24) ||| (b1 <<< 16)) ||| ((b2 <<< 8) ||| b3)) :: bytesToWords rest
  | _ => []

/-- Extend the 16-word schedule by `n` further words. -/
def extendSchedule : List Nat → Nat → List Nat
  | ws, 0 => ws
  | ws, n + 1 =>
      let i := ws.length
      let v := add32 (add32 (shaSmallSigma1 (ws.getD (i - 2) 0)) (ws.getD (i - 7) 0))
                     (add32 (shaSmallSigma0 (ws.getD (i - 15) 0)) (ws.getD (i - 16) 0))
      extendSchedule (ws ++ [v]) n

/-- One SHA-256 compression round on the 8-word state. -/
def compressRound (st : List Nat) (kw : Nat × Nat) : List Nat :=
  let a := st.getD 0 0
  let b := st.getD 1 0
  let c := st.getD 2 0
  let d := st.getD 3 0
  let e := st.getD 4 0
  let f := st.getD 5 0
  let g := st.getD 6 0
  let hh := st.getD 7 0
  let t1 := add32 hh (add32 (shaBigSigma1 e) (add32 (shaCh e f g) (add32 kw.1 kw.2)))
  let t2 := add32 (shaBigSigma0 a) (shaMaj a b c)
  [add32 t1 t2, a, b, c, add32 d t1, e, f, g]

/-- Compress one 64-byte block into the running hash. -/
def compressBlock (hs : List Nat) (block : List Nat) : List Nat :=
  let ws := extendSchedule (bytesToWords block) 48
  let st := (sha256K.zip ws).foldl compressRound hs
  (hs.zip st).map (fun p => add32 p.1 p.2)

/-- Split a byte list into 64-byte chunks (fuel-based for structural
termination). -/
def chunksAux : Nat → List Nat → List (List Nat)
  | 0, _ => []
  | _, [] => []
  | fuel + 1, l => l.take 64 :: chunksAux fuel (l.drop 64)

/-- Split into 64-byte chunks. -/
def chunks64 (l : List Nat) : List (List Nat) := chunksAux (l.length + 1) l

/-- SHA-256 of a byte list, as 32 bytes. -/
def sha256Bytes (msg : List Nat) : List Nat :=
  let hs := (chunks64 (sha256Pad msg)).foldl compressBlock sha256H0
  hs.foldr (fun word acc => toBytesBE 4 word ++ acc) []

/-- HMAC key normalisation: hash keys longer than the 64-byte block, then
zero-pad to the block size. -/
def hmacKeyBlock (key : List Nat) : List Nat :=
  let k0 := if key.length > 64 then sha256Bytes key else key
  k0 ++ List.replicate (64 - k0.length) 0

/-- HMAC-SHA256 (RFC 2104) over byte lists. -/
def hmacSha256 (key msg : List Nat) : List Nat :=
  let kb := hmacKeyBlock key
  let ipadKey := kb.map (fun b => b ^^^ 54)
  let opadKey := kb.map (fun b => b ^^^ 92)
  sha256Bytes (opadKey ++ sha256Bytes (ipadKey ++ msg))

/-- UTF-8 bytes of a string. -/
def strBytes (s : String) : List Nat := s.toUTF8.toList.map (fun b => b.toNat)

/-- The sixteen lowercase hexadecimal digits. -/
def hexDigitChars : List Char := "0123456789abcdef".data

/-- Lowercase hex digit for a nibble. -/
def hexDigit (n : Nat) : Char := hexDigitChars.getD n '0'

/-- Is this character a lowercase hexadecimal digit? -/
def isLowerHexDigit (c : Char) : Bool := hexDigitChars.contains c

/-- Hex digest rendering: two lowercase hex digits per byte. -/
def bytesToHex (bs : List Nat) : String :=
  ⟨bs.foldr (fun b acc => hexDigit (b / 16 % 16) :: hexDigit (b % 16) :: acc) []⟩

/-- Model of the crypto hmac-sha256 of the message under the key, hex-rendered. -/
def hmacSha256Hex (key msg : String) : String :=
  bytesToHex (hmacSha256 (strBytes key) (strBytes msg))

/-! ## Request signing (src/client.ts lines 26-38) -/

/-- Embedding of `generateSignature` (`src/client.ts` lines 26-29): HMAC-SHA256 of
the concatenation nonce + httpMethod + requestPath + body (empty string body
when absent) keyed by the API secret,
rendered as hex. -/
def generateSignature (apiSecret nonce httpMethod requestPath : String)
    (body : Option String) : String :=
  hmacSha256Hex apiSecret (nonce ++ httpMethod ++ requestPath ++ body.getD "")

/-- Embedding of `createAuthHeaders` (`src/client.ts` lines 31-38): the `Authorization`
header value; the nonce (`Date.now().toString()` in the source) is passed
explicitly. -/
def createAuthHeaders (apiKey apiSecret nonce httpMethod requestPath : String)
    (body : Option String) : String :=
  "Bitso " ++ apiKey ++ ":" ++ nonce ++ ":" ++
    generateSignature apiSecret nonce httpMethod requestPath body

/-! ## Client operations (src/client.ts lines 103-248)

Each operation is a pure function of the pre-call cache, the current time,
the TTL, its parameters and the transport outcome for this call.  The
transport outcome is `Except Unit` of the parsed response: `.error` is a
rejected axios promise (network error, timeout, or non-2xx status), `.ok` is
an HTTP success with the parsed body.  The shared `Map<string, any>` is a
`CacheMap CacheValue`; the unchecked `as T` cast on a hit is modelled by a
per-type projection with a default. -/

/-- The `any`-typed values the shared cache can hold. -/
inductive CacheValue where
  | fundingsList (r : FundingListResponse)
  | withdrawalsList (r : WithdrawalListResponse)
  | fundingItem (f : Funding)
  | withdrawalItem (w : Withdrawal)
deriving DecidableEq

/-- Placeholder for the unchecked-cast projections (unreachable from the
states the client itself builds, since the key determines the stored type). -/
def defaultFunding : Funding :=
  { fid := "", status := "", created_at := "", currency := "", method := "", amount := ""
  , details := [] }

/-- Placeholder withdrawal for the unchecked-cast projections. -/
def defaultWithdrawal : Withdrawal :=
  { wid := "", status := "", created_at := "", currency := "", method := "", amount := ""
  , asset := none, network := none, protocol := none, details := [], origin_id := none }

/-- Model of the TS `cached as FundingListResponse` cast. -/
def CacheValue.asFundingsList : CacheValue → FundingListResponse
  | .fundingsList r => r
  | _ => { success := false, payload := none }

/-- Model of the TS `cached as WithdrawalListResponse` cast. -/
def CacheValue.asWithdrawalsList : CacheValue → WithdrawalListResponse
  | .withdrawalsList r => r
  | _ => { success := false, payload := none }

/-- Model of the TS `cached as Funding` cast. -/
def CacheValue.asFundingItem : CacheValue → Funding
  | .fundingItem f => f
  | _ => defaultFunding

/-- Model of the TS `cached as Withdrawal` cast. -/
def CacheValue.asWithdrawalItem : CacheValue → Withdrawal
  | .withdrawalItem w => w
  | _ => defaultWithdrawal

/-- Filter parameters of `getFundings`. -/
structure FundingsParams where
  limit : Option Nat
  marker : Option String
  method : Option String
  status : Option String
  fids : Option String
deriving DecidableEq

/-- Filter parameters of `getWithdrawals`. -/
structure WithdrawalsParams where
  currency : Option String
  limit : Option Nat
  marker : Option String
  method : Option String
  origin_id : Option String
  status : Option String
  wid : Option String
deriving DecidableEq

/-- JSON string literal (escaping elided; cache keys are opaque). -/
def jsonStr (s : String) : String := "\"" ++ s ++ "\""

/-- Model of `JSON.stringify` on a fundings params object: fields in
declaration order, `undefined` fields omitted. -/
def serializeFundingsParams (p : FundingsParams) : String :=
  let fields :=
    (p.limit.map (fun n => jsonStr "limit" ++ ":" ++ toString n)).toList ++
    (p.marker.map (fun m => jsonStr "marker" ++ ":" ++ jsonStr m)).toList ++
    (p.method.map (fun m => jsonStr "method" ++ ":" ++ jsonStr m)).toList ++
    (p.status.map (fun st => jsonStr "status" ++ ":" ++ jsonStr st)).toList ++
    (p.fids.map (fun f => jsonStr "fids" ++ ":" ++ jsonStr f)).toList
  "\x7b" ++ String.intercalate "," fields ++ "\x7d"

/-- Model of `JSON.stringify` on a withdrawals params object. -/
def serializeWithdrawalsParams (p : WithdrawalsParams) : String :=
  let fields :=
    (p.currency.map (fun c => jsonStr "currency" ++ ":" ++ jsonStr c)).toList ++
    (p.limit.map (fun n => jsonStr "limit" ++ ":" ++ toString n)).toList ++
    (p.marker.map (fun m => jsonStr "marker" ++ ":" ++ jsonStr m)).toList ++
    (p.method.map (fun m => jsonStr "method" ++ ":" ++ jsonStr m)).toList ++
    (p.origin_id.map (fun o => jsonStr "origin_id" ++ ":" ++ jsonStr o)).toList ++
    (p.status.map (fun st => jsonStr "status" ++ ":" ++ jsonStr st)).toList ++
    (p.wid.map (fun w => jsonStr "wid" ++ ":" ++ jsonStr w)).toList
  "\x7b" ++ String.intercalate "," fields ++ "\x7d"

/-- Cache key of a `getFundings` call. -/
def fundingsCacheKey (params : Option FundingsParams) : String :=
  getCacheKey "/api/v3/fundings" (params.map serializeFundingsParams)

/-- Cache key of a `getWithdrawals` call. -/
def withdrawalsCacheKey (params : Option WithdrawalsParams) : String :=
  getCacheKey "/api/v3/withdrawals" (params.map serializeWithdrawalsParams)

/-- Cache key of a `getFunding` call. -/
def fundingCacheKey (fid : String) : String :=
  getCacheKey ("/api/v3/fundings/" ++ fid) none

/-- Cache key of a `getWithdrawal` call. -/
def withdrawalCacheKey (wid : String) : String :=
  getCacheKey ("/api/v3/withdrawals/" ++ wid) none

/-- Embedding of `getFundings` (`src/client.ts` lines 173-215): read-through cache around
the signed GET; on transport error (`catch`) the error is logged and
re-thrown; on HTTP success the parsed envelope is cached unconditionally
before being returned. -/
def getFundings (cache : CacheMap CacheValue) (now ttl : Nat)
    (params : Option FundingsParams)
    (transport : Except Unit FundingListResponse) :
    Except Unit FundingListResponse × CacheMap CacheValue :=
  let key := fundingsCacheKey params
  match getCachedData cache key now with
  | (some v, c₁) => (.ok v.asFundingsList, c₁)
  | (none, c₁) =>
    match transport with
    | .error e => (.error e, c₁)
    | .ok data => (.ok data, setCachedData c₁ key (.fundingsList data) now ttl)

/-- Embedding of `getWithdrawals` (`src/client.ts` lines 103-138): same read-through
shape as `getFundings`. -/
def getWithdrawals (cache : CacheMap CacheValue) (now ttl : Nat)
    (params : Option WithdrawalsParams)
    (transport : Except Unit WithdrawalListResponse) :
    Except Unit WithdrawalListResponse × CacheMap CacheValue :=
  let key := withdrawalsCacheKey params
  match getCachedData cache key now with
  | (some v, c₁) => (.ok v.asWithdrawalsList, c₁)
  | (none, c₁) =>
    match transport with
    | .error e => (.error e, c₁)
    | .ok data => (.ok data, setCachedData c₁ key (.withdrawalsList data) now ttl)

/-- Embedding of `getFunding` (`src/client.ts` lines 217-248): on a miss, fetch the
single-entity envelope; `if (!response.data.success) throw`, and only on
success cache the payload before returning it. -/
def getFunding (cache : CacheMap CacheValue) (now ttl : Nat) (fid : String)
    (transport : Except Unit (SingleEnvelope Funding)) :
    Except Unit Funding × CacheMap CacheValue :=
  let key := fundingCacheKey fid
  match getCachedData cache key now with
  | (some v, c₁) => (.ok v.asFundingItem, c₁)
  | (none, c₁) =>
    match transport with
    | .error e => (.error e, c₁)
    | .ok env =>
      if env.success then
        (.ok env.payload, setCachedData c₁ key (.fundingItem env.payload) now ttl)
      else (.error (), c₁)

/-- Embedding of `getWithdrawal` (`src/client.ts` lines 140-171): single-entity fetch for
withdrawals, same shape as `getFunding`. -/
def getWithdrawal (cache : CacheMap CacheValue) (now ttl : Nat) (wid : String)
    (transport : Except Unit (SingleEnvelope Withdrawal)) :
    Except Unit Withdrawal × CacheMap CacheValue :=
  let key := withdrawalCacheKey wid
  match getCachedData cache key now with
  | (some v, c₁) => (.ok v.asWithdrawalItem, c₁)
  | (none, c₁) =>
    match transport with
    | .error e => (.error e, c₁)
    | .ok env =>
      if env.success then
        (.ok env.payload, setCachedData c₁ key (.withdrawalItem env.payload) now ttl)
      else (.error (), c₁)

/-! ## testConnection (src/client.ts lines 78-101) -/

/-- An HTTP response as seen after a resolved axios promise. -/
structure HttpResponse (α : Type) where
  status : Nat
  data : α
deriving DecidableEq

/-- A request as issued by the client: base path (also the signed path),
query parameters appended separately by axios, and the auth header. -/
structure IssuedRequest where
  httpMethod : String
  path : String
  query : List (String × String)
  authorization : String
deriving DecidableEq

/-- The single request `testConnection` issues (`src/client.ts` lines
82-88): GET `/api/v3/withdrawals` with `params: { limit: 1 }`, signed over
the bare request path. -/
def testConnectionRequest (apiKey apiSecret nonce : String) : IssuedRequest :=
  { httpMethod := "GET"
  , path := "/api/v3/withdrawals"
  , query := [("limit", "1")]
  , authorization := createAuthHeaders apiKey apiSecret nonce "GET" "/api/v3/withdrawals" none }

/-- Embedding of the `testConnection` result (`src/client.ts` lines 78-101): `true` iff the
transport resolved with status 200; every rejection is caught and mapped to
`false`. -/
def testConnection (transport : Except Unit (HttpResponse WithdrawalListResponse)) : Bool :=
  match transport with
  | .ok response => response.status == 200
  | .error _ => false

/-- Query pairs for a `getFundings` call, as axios serializes `params`. -/
def fundingsQueryPairs (params : Option FundingsParams) : List (String × String) :=
  match params with
  | none => []
  | some p =>
    (p.limit.map (fun n => ("limit", toString n))).toList ++
    (p.marker.map (fun m => ("marker", m))).toList ++
    (p.method.map (fun m => ("method", m))).toList ++
    (p.status.map (fun st => ("status", st))).toList ++
    (p.fids.map (fun f => ("fids", f))).toList

/-- The request a cache-missing `getFundings` issues (`src/client.ts` lines
187-201): the signed path is the bare `/api/v3/fundings`; the filter
parameters travel only as query parameters. -/
def getFundingsRequest (apiKey apiSecret nonce : String)
    (params : Option FundingsParams) : IssuedRequest :=
  { httpMethod := "GET"
  , path := "/api/v3/fundings"
  , query := fundingsQueryPairs params
  , authorization := createAuthHeaders apiKey apiSecret nonce "GET" "/api/v3/fundings" none }

/-! ## export_fundings tool (src/tools/bitso-tools.ts lines 17-100)

The pagination loop is driven by a script: the outcomes of the successive
`client.getFundings` calls, in order (`.throw` for a rejected call).  A
request log records the `marker` sent with each issued call.  Exhausting the
script while the loop still wants a page is a model artifact (`.starved`),
not a program behaviour.  The out-of-bounds-capable last-element access
`payload[payload.length - 1].fid` is modelled by an optional index with an
explicit `.crashed` outcome, proven unreachable. -/

/-- Outcome of one scripted `getFundings` call inside the loop. -/
inductive PageResult where
  | throw
  | resp (r : FundingListResponse)
deriving DecidableEq

/-- How the pagination loop ended. -/
inductive LoopOutcome where
  | finished
  | threw
  | crashed
  | starved
deriving DecidableEq

/-- Result of running the pagination loop. -/
structure LoopResult where
  collected : List Funding
  requests : List (Option String)
  outcome : LoopOutcome
deriving DecidableEq

/-- The `do ... while (marker)` loop of `export_fundings`
(`src/tools/bitso-tools.ts` lines 24-37).  `marker` is truthy in JS only
when it is a non-empty string, so the loop continues only on
`some s` with `s ≠ ""`. -/
def exportLoopAux (script : List PageResult) (marker : Option String)
    (acc : List Funding) (log : List (Option String)) : LoopResult :=
  match script with
  | [] => { collected := acc, requests := log, outcome := .starved }
  | .throw :: _ =>
      { collected := acc, requests := log ++ [marker], outcome := .threw }
  | .resp r :: rest =>
    let logNext := log ++ [marker]
    if !r.success || r.payload.isNone then
      { collected := acc, requests := logNext, outcome := .finished }
    else
      let items := r.payload.getD []
      let accNext := acc ++ items
      if items.length == 100 then
        match items.get? (items.length - 1) with
        | none => { collected := accNext, requests := logNext, outcome := .crashed }
        | some lastItem =>
          if lastItem.fid == "" then
            { collected := accNext, requests := logNext, outcome := .finished }
          else exportLoopAux rest (some lastItem.fid) accNext logNext
      else { collected := accNext, requests := logNext, outcome := .finished }

/-- Run the loop from its initial state (`marker = undefined`,
`allFundings = []`). -/
def exportLoop (script : List PageResult) : LoopResult :=
  exportLoopAux script none [] []

/-- JS string replace of the first comma by nothing, on a character list: remove the
first comma only. -/
def removeFirstCommaAux : List Char → List Char
  | [] => []
  | c :: cs => if c = ',' then cs else c :: removeFirstCommaAux cs

/-- JS replace of the first comma by the empty string. -/
def removeFirstComma (s : String) : String := ⟨removeFirstCommaAux s.data⟩

/-- The fixed CSV header (`src/tools/bitso-tools.ts` line 50). -/
def csvHeader : String := "method,currency,gross,fee,net amount,timestamp,datetime\n"

/-- One CSV row (`src/tools/bitso-tools.ts` lines 51-69).  `dateMillis`
models `new Date(created_at).getTime()` (epoch milliseconds, an `Int`);
`renderLocal` models the en-US locale rendering of the same instant.
`gross` and `netAmount` are the amount string verbatim; `fee` is the literal
`"0"`; the timestamp is `Math.floor(millis / 1000)`. -/
def csvRow (dateMillis : String → Int) (renderLocal : Int → String) (funding : Funding) :
    String :=
  let ms := dateMillis funding.created_at
  let timestamp := Int.fdiv ms 1000
  let datetime := removeFirstComma (renderLocal ms)
  let gross := funding.amount
  let fee := "0"
  let netAmount := funding.amount
  funding.method ++ "," ++ funding.currency ++ "," ++ gross ++ "," ++ fee ++ "," ++
    netAmount ++ "," ++ toString timestamp ++ "," ++ datetime

/-- The full CSV text (`src/tools/bitso-tools.ts` lines 50-71):
the header concatenated with the newline-joined rows. -/
def csvContent (dateMillis : String → Int) (renderLocal : Int → String)
    (allFundings : List Funding) : String :=
  csvHeader ++ String.intercalate "\n" (allFundings.map (csvRow dateMillis renderLocal))

/-- What the tool hands back to the caller. -/
inductive ToolOutcome where
  | errorText
  | noData
  | exported (csv : String) (count : Nat)
  | modelStuck
deriving DecidableEq

/-- The `export_fundings` tool body (`src/tools/bitso-tools.ts` lines
17-100): run the loop; a thrown call lands in the `catch` block, which
returns only an error message (the collected fundings are discarded); an
empty collection returns the no-data message; otherwise the CSV is written
and a success message with the record count is returned. -/
def export_fundings (dateMillis : String → Int) (renderLocal : Int → String)
    (script : List PageResult) : ToolOutcome :=
  let res := exportLoop script
  match res.outcome with
  | .threw => .errorText
  | .crashed => .errorText
  | .starved => .modelStuck
  | .finished =>
    if res.collected.length == 0 then .noData
    else .exported (csvContent dateMillis renderLocal res.collected) res.collected.length

/-- A page that makes the loop continue: successful envelope, payload
present, exactly 100 items, and a non-empty fid on the last item. -/
def isContinuingPage (r : FundingListResponse) : Bool :=
  r.success && r.payload.isSome && (r.payload.getD []).length == 100 &&
    (match (r.payload.getD []).getLast? with
     | some lastItem => lastItem.fid != ""
     | none => false)

/-- A page on which the loop breaks before appending: application failure or
missing payload. -/
def isBreakPage (r : FundingListResponse) : Bool :=
  !r.success || r.payload.isNone

/-- Items of a page envelope. -/
def pageItems (r : FundingListResponse) : List Funding := r.payload.getD []

/-- Concatenation of the items of a list of pages. -/
def joinPages (pages : List FundingListResponse) : List Funding :=
  pages.flatMap pageItems

/-- Test fixture: a page of `n` identical fundings all carrying fid `s`. -/
def fixturePage (n : Nat) (s : String) : List Funding :=
  List.replicate n
    { fid := s, status := "complete", created_at := "2025-08-12T01:54:02+00:00"
    , currency := "usd", method := "usdc_trf", amount := "29.99", details := [] }

/-- Test fixture: a mock source answering with successful pages of sizes
100, 100 and 37 (the pagination-termination scenario of the spec). -/
def fixtureScript237 : List PageResult :=
  [ .resp { success := true, payload := some (fixturePage 100 "a") }
  , .resp { success := true, payload := some (fixturePage 100 "b") }
  , .resp { success := true, payload := some (fixturePage 37 "c") } ]

end BitsoMcp

namespace BitsoMcp

/-! ### Cache lemmas -/

theorem cacheFind_delete_self {α : Type} (c : CacheMap α) (k : String) :
    cacheFind (cacheDelete c k) k = none := by
  induction c with
  | nil => rfl
  | cons p rest ih =>
    by_cases hp : p.1 = k
    · simpa [cacheDelete, cacheFind, hp] using ih
    · simpa [cacheDelete, cacheFind, hp] using ih

theorem cacheFind_delete_ne {α : Type} (c : CacheMap α) (k k' : String)
    (hne : k' ≠ k) : cacheFind (cacheDelete c k) k' = cacheFind c k' := by
  induction c with
  | nil => rfl
  | cons p rest ih =>
    by_cases hp : p.1 = k
    · have hk' : ¬ k = k' := fun hc => hne hc.symm
      simpa [cacheDelete, cacheFind, hp, hk'] using ih
    · by_cases hq : p.1 = k'
      · simp [cacheDelete, cacheFind, hq, hne]
      · simpa [cacheDelete, cacheFind, hp, hq] using ih

theorem cacheFind_set_self {α : Type} (c : CacheMap α) (k : String) (e : CacheEntry α) :
    cacheFind (cacheSet c k e) k = some e := by
  simp [cacheSet, cacheFind]

theorem cacheFind_set_ne {α : Type} (c : CacheMap α) (k k' : String) (e : CacheEntry α)
    (hne : k' ≠ k) : cacheFind (cacheSet c k e) k' = cacheFind c k' := by
  have : ¬ k = k' := fun hc => hne hc.symm
  simp only [cacheSet, cacheFind, this, if_false]
  exact cacheFind_delete_ne c k k' hne

/-- The cache coming out of a lookup is the incoming cache, or the incoming
cache with the looked-up key lazily evicted. -/
theorem getCachedData_snd {α : Type} (c : CacheMap α) (k : String) (now : Nat) :
    (getCachedData c k now).2 = c ∨ (getCachedData c k now).2 = cacheDelete c k := by
  unfold getCachedData
  cases h : cacheFind c k with
  | none => exact Or.inl rfl
  | some e =>
    by_cases hfr : now < e.expires
    · exact Or.inl (by simp [hfr])
    · exact Or.inr (by simp [hfr])

/-! ### RequestSigner lemmas -/

theorem isLowerHexDigit_hexDigit (n : Nat) : isLowerHexDigit (hexDigit n) = true := by
  by_cases h : n < 16
  · interval_cases n <;> decide
  · have hlen : hexDigitChars.length ≤ n := by
      simpa [hexDigitChars] using Nat.le_of_not_lt h
    rw [hexDigit, List.getD_eq_default _ _ hlen]
    decide

theorem bytesToHex_all_lower (bs : List Nat) :
    (bytesToHex bs).data.all isLowerHexDigit = true := by
  induction bs with
  | nil => rfl
  | cons b rest ih =>
    simpa [bytesToHex, List.all_cons, isLowerHexDigit_hexDigit] using ih

/-- C5: For every request issued by the client, the Authorization header
value equals `<scheme> <key>:<nonce>:<signature>` with scheme `Bitso`, where
the signature is the lowercase hexadecimal HMAC-SHA256, keyed by the API
secret, of the exact concatenation `nonce + method + path + body` (body
empty when absent); for `getFundings` the signed path is the bare
`/api/v3/fundings` even when filter parameters are supplied (they travel
only as query parameters, so the header does not depend on them). -/
theorem auth_header_spec :
    (∀ apiKey apiSecret nonce httpMethod requestPath : String, ∀ body : Option String,
       createAuthHeaders apiKey apiSecret nonce httpMethod requestPath body
         = "Bitso " ++ apiKey ++ ":" ++ nonce ++ ":" ++
             hmacSha256Hex apiSecret (nonce ++ httpMethod ++ requestPath ++ body.getD ""))
    ∧ (∀ key msg : String, (hmacSha256Hex key msg).data.all isLowerHexDigit = true)
    ∧ (∀ apiKey apiSecret nonce : String, ∀ params : Option FundingsParams,
       (getFundingsRequest apiKey apiSecret nonce params).path = "/api/v3/fundings"
       ∧ (getFundingsRequest apiKey apiSecret nonce params).authorization
           = "Bitso " ++ apiKey ++ ":" ++ nonce ++ ":" ++
               hmacSha256Hex apiSecret (nonce ++ "GET" ++ "/api/v3/fundings"))
    ∧ (∀ apiKey apiSecret nonce : String, ∀ params params' : Option FundingsParams,
       (getFundingsRequest apiKey apiSecret nonce params).authorization
         = (getFundingsRequest apiKey apiSecret nonce params').authorization) := by
  refine ⟨fun _ _ _ _ _ _ => rfl, fun key msg => bytesToHex_all_lower _, ?_, ?_⟩
  · refine fun _ _ _ _ => ⟨rfl, ?_⟩
    simp [getFundingsRequest, createAuthHeaders, generateSignature]
  · exact fun _ _ _ _ _ => rfl

/-! ### TTLCache theorems -/

/-- C6: For all cache keys and values, `set` then `get` before the TTL has
elapsed returns exactly the stored value and leaves the cache untouched;
`set` stores the entry with `expires = now + ttlSeconds * 1000`, overwriting
any prior entry for the key unconditionally. -/
theorem cache_set_get_roundtrip {α : Type} (c : CacheMap α) (k : String) (v : α)
    (now ttlSeconds atTime : Nat) (hfresh : atTime < now + ttlSeconds * 1000) :
    getCachedData (setCachedData c k v now ttlSeconds) k atTime
      = (some v, setCachedData c k v now ttlSeconds)
    ∧ cacheFind (setCachedData c k v now ttlSeconds) k
      = some { data := v, expires := now + ttlSeconds * 1000 } := by
  constructor
  · simp [getCachedData, setCachedData, cacheFind_set_self, hfresh]
  · simp [setCachedData, cacheFind_set_self]

/-- Witness for C6 at a concrete key, value and clock. -/
theorem cache_set_get_roundtrip_witness :
    getCachedData (setCachedData ([] : CacheMap Nat) "k" 7 1000 300) "k" 2000
      = (some 7, setCachedData ([] : CacheMap Nat) "k" 7 1000 300)
    ∧ cacheFind (setCachedData ([] : CacheMap Nat) "k" 7 1000 300) "k"
      = some { data := 7, expires := 1000 + 300 * 1000 } :=
  cache_set_get_roundtrip [] "k" 7 1000 300 2000 (by decide)

/-- C7: When the entry under a key has `now >= expires`, `get` returns
absent and deletes exactly that entry: lookups under every other key are
unchanged, and a subsequent `get` on an unrelated unexpired key still
returns its stored value. -/
theorem cache_expired_get_frame {α : Type} (c : CacheMap α) (k : String)
    (e : CacheEntry α) (now : Nat) (hfound : cacheFind c k = some e)
    (hexp : e.expires ≤ now) :
    getCachedData c k now = (none, cacheDelete c k)
    ∧ (∀ k', k' ≠ k → cacheFind (cacheDelete c k) k' = cacheFind c k')
    ∧ (∀ k' e', k' ≠ k → cacheFind c k' = some e' → now < e'.expires →
        getCachedData (cacheDelete c k) k' now = (some e'.data, cacheDelete c k)) := by
  refine ⟨?_, fun k' hne => cacheFind_delete_ne c k k' hne, ?_⟩
  · simp [getCachedData, hfound, Nat.not_lt.mpr hexp]
  · intro k' e' hne hf hfr
    simp [getCachedData, cacheFind_delete_ne c k k' hne, hf, hfr]

/-- Witness for C7: a two-entry cache where `a` is expired at time 10 and
`b` is not. -/
theorem cache_expired_get_frame_witness :
    getCachedData [("a", ⟨1, 5⟩), ("b", ⟨2, 100⟩)] "a" 10
      = (none, cacheDelete ([("a", ⟨1, 5⟩), ("b", ⟨2, 100⟩)] : CacheMap Nat) "a")
    ∧ (∀ k', k' ≠ "a" →
        cacheFind (cacheDelete ([("a", ⟨1, 5⟩), ("b", ⟨2, 100⟩)] : CacheMap Nat) "a") k'
          = cacheFind ([("a", ⟨1, 5⟩), ("b", ⟨2, 100⟩)] : CacheMap Nat) k')
    ∧ (∀ k' e', k' ≠ "a" →
        cacheFind ([("a", ⟨1, 5⟩), ("b", ⟨2, 100⟩)] : CacheMap Nat) k' = some e' →
        10 < e'.expires →
        getCachedData (cacheDelete ([("a", ⟨1, 5⟩), ("b", ⟨2, 100⟩)] : CacheMap Nat) "a") k' 10
          = (some e'.data,
             cacheDelete ([("a", ⟨1, 5⟩), ("b", ⟨2, 100⟩)] : CacheMap Nat) "a")) :=
  cache_expired_get_frame [("a", ⟨1, 5⟩), ("b", ⟨2, 100⟩)] "a" ⟨1, 5⟩ 10 (by decide) (by decide)

/-! ### testConnection theorem -/

/-- C8: `testConnection` issues a single signed list-withdrawals request
with limit 1 (signed over the bare path), returns `true` iff the transport
resolves with the success status 200, and maps every transport or
authentication rejection (timeouts included) to `false` instead of
propagating it. -/
theorem testConnection_spec :
    (∀ apiKey apiSecret nonce : String,
       testConnectionRequest apiKey apiSecret nonce
         = { httpMethod := "GET", path := "/api/v3/withdrawals", query := [("limit", "1")]
           , authorization :=
               createAuthHeaders apiKey apiSecret nonce "GET" "/api/v3/withdrawals" none })
    ∧ (∀ t, testConnection t = true ↔
        ∃ response, t = .ok response ∧ response.status = 200)
    ∧ (∀ e, testConnection (.error e) = false) := by
  refine ⟨fun _ _ _ => rfl, ?_, fun _ => rfl⟩
  intro t
  cases t with
  | error e => simp [testConnection]
  | ok response =>
    constructor
    · intro hs
      exact ⟨response, rfl, by simpa [testConnection] using hs⟩
    · rintro ⟨r, hr, hs⟩
      cases hr
      simpa [testConnection] using hs

/-! ### Caching-policy theorems (C1, C10) -/

theorem getFundings_error_snd (c : CacheMap CacheValue) (now ttl : Nat)
    (params : Option FundingsParams) (e : Unit) :
    (getFundings c now ttl params (.error e)).2
      = (getCachedData c (fundingsCacheKey params) now).2 := by
  cases h : getCachedData c (fundingsCacheKey params) now with
  | mk v c₁ => cases v <;> simp [getFundings, h]

theorem getWithdrawals_error_snd (c : CacheMap CacheValue) (now ttl : Nat)
    (params : Option WithdrawalsParams) (e : Unit) :
    (getWithdrawals c now ttl params (.error e)).2
      = (getCachedData c (withdrawalsCacheKey params) now).2 := by
  cases h : getCachedData c (withdrawalsCacheKey params) now with
  | mk v c₁ => cases v <;> simp [getWithdrawals, h]

theorem getFunding_fail_snd (c : CacheMap CacheValue) (now ttl : Nat) (fid : String)
    (tr : Except Unit (SingleEnvelope Funding))
    (hfail : ∀ env, tr = .ok env → env.success = false) :
    (getFunding c now ttl fid tr).2 = (getCachedData c (fundingCacheKey fid) now).2 := by
  cases h : getCachedData c (fundingCacheKey fid) now with
  | mk v c₁ =>
    cases v with
    | some w => simp [getFunding, h]
    | none =>
      cases tr with
      | error e => simp [getFunding, h]
      | ok env => simp [getFunding, h, hfail env rfl]

theorem getWithdrawal_fail_snd (c : CacheMap CacheValue) (now ttl : Nat) (wid : String)
    (tr : Except Unit (SingleEnvelope Withdrawal))
    (hfail : ∀ env, tr = .ok env → env.success = false) :
    (getWithdrawal c now ttl wid tr).2 = (getCachedData c (withdrawalCacheKey wid) now).2 := by
  cases h : getCachedData c (withdrawalCacheKey wid) now with
  | mk v c₁ =>
    cases v with
    | some w => simp [getWithdrawal, h]
    | none =>
      cases tr with
      | error e => simp [getWithdrawal, h]
      | ok env => simp [getWithdrawal, h, hfail env rfl]

/-- C1 (amended): transport failures are never cached: after a rejected
request each of the four operations leaves the cache equal to the pre-call
cache, except possibly for the lazy eviction of an already-expired entry
under the queried key.  The single-entity operations also write nothing when
the envelope has `success = false`.  The list operations, however, cache the
parsed envelope of every HTTP-success response unconditionally — including
envelopes with `success = false`. -/
theorem failure_caching_policy :
    (∀ c now ttl params e, (getFundings c now ttl params (.error e)).2 = c
       ∨ (getFundings c now ttl params (.error e)).2
           = cacheDelete c (fundingsCacheKey params))
    ∧ (∀ c now ttl params e, (getWithdrawals c now ttl params (.error e)).2 = c
       ∨ (getWithdrawals c now ttl params (.error e)).2
           = cacheDelete c (withdrawalsCacheKey params))
    ∧ (∀ c now ttl fid e, (getFunding c now ttl fid (.error e)).2 = c
       ∨ (getFunding c now ttl fid (.error e)).2 = cacheDelete c (fundingCacheKey fid))
    ∧ (∀ c now ttl wid e, (getWithdrawal c now ttl wid (.error e)).2 = c
       ∨ (getWithdrawal c now ttl wid (.error e)).2 = cacheDelete c (withdrawalCacheKey wid))
    ∧ (∀ c now ttl fid p,
       (getFunding c now ttl fid (.ok { success := false, payload := p })).2 = c
       ∨ (getFunding c now ttl fid (.ok { success := false, payload := p })).2
           = cacheDelete c (fundingCacheKey fid))
    ∧ (∀ c now ttl wid p,
       (getWithdrawal c now ttl wid (.ok { success := false, payload := p })).2 = c
       ∨ (getWithdrawal c now ttl wid (.ok { success := false, payload := p })).2
           = cacheDelete c (withdrawalCacheKey wid))
    ∧ (∀ c now ttl params r c₁,
       getCachedData c (fundingsCacheKey params) now = (none, c₁) →
       (getFundings c now ttl params (.ok r)).2
         = setCachedData c₁ (fundingsCacheKey params) (.fundingsList r) now ttl)
    ∧ (∀ c now ttl params r c₁,
       getCachedData c (withdrawalsCacheKey params) now = (none, c₁) →
       (getWithdrawals c now ttl params (.ok r)).2
         = setCachedData c₁ (withdrawalsCacheKey params) (.withdrawalsList r) now ttl) := by
  refine ⟨?_, ?_, ?_, ?_, ?_, ?_, ?_, ?_⟩
  · intro c now ttl params e
    rw [getFundings_error_snd]
    exact getCachedData_snd c (fundingsCacheKey params) now
  · intro c now ttl params e
    rw [getWithdrawals_error_snd]
    exact getCachedData_snd c (withdrawalsCacheKey params) now
  · intro c now ttl fid e
    rw [getFunding_fail_snd c now ttl fid _ (fun env h => by cases h)]
    exact getCachedData_snd c (fundingCacheKey fid) now
  · intro c now ttl wid e
    rw [getWithdrawal_fail_snd c now ttl wid _ (fun env h => by cases h)]
    exact getCachedData_snd c (withdrawalCacheKey wid) now
  · intro c now ttl fid p
    rw [getFunding_fail_snd c now ttl fid _ (fun env h => by cases h; rfl)]
    exact getCachedData_snd c (fundingCacheKey fid) now
  · intro c now ttl wid p
    rw [getWithdrawal_fail_snd c now ttl wid _ (fun env h => by cases h; rfl)]
    exact getCachedData_snd c (withdrawalCacheKey wid) now
  · intro c now ttl params r c₁ h
    simp [getFundings, h]
  · intro c now ttl params r c₁ h
    simp [getWithdrawals, h]

/-- Witness for C1: on an empty cache (a miss) both list operations store
the parsed envelope even though it carries `success = false`. -/
theorem failure_caching_policy_witness :
    (getFundings [] 0 300 none (.ok { success := false, payload := some [] })).2
      = setCachedData [] (fundingsCacheKey none)
          (.fundingsList { success := false, payload := some [] }) 0 300
    ∧ (getWithdrawals [] 0 300 none (.ok { success := false, payload := some [] })).2
      = setCachedData [] (withdrawalsCacheKey none)
          (.withdrawalsList { success := false, payload := some [] }) 0 300 :=
  ⟨failure_caching_policy.2.2.2.2.2.2.1 [] 0 300 none
      { success := false, payload := some [] } [] rfl,
   failure_caching_policy.2.2.2.2.2.2.2 [] 0 300 none
      { success := false, payload := some [] } [] rfl⟩

/-- Counterexample to C1 as stated: an application failure
(`success = false`) returned with HTTP success to `getFundings` IS written
to the cache, so the cache after the call differs from the cache before. -/
theorem getFundings_caches_failed_envelope :
    (getFundings [] 0 300 none (.ok { success := false, payload := some [] })).2
      ≠ ([] : CacheMap CacheValue)
    ∧ cacheFind
        (getFundings [] 0 300 none (.ok { success := false, payload := some [] })).2
        "/api/v3/fundings"
      = some { data := CacheValue.fundingsList { success := false, payload := some [] }
             , expires := 300000 } := by
  constructor
  · decide
  · decide

/-- C10 (amended): when the envelope reports `success = false` on a cache
miss, `getFunding`/`getWithdrawal` throw before any cache write: the cache
coming out of the call is the one produced by the lookup itself, i.e. the
pre-call cache, or the pre-call cache minus an already-expired entry under
the queried key. -/
theorem single_entity_failure_no_write :
    (∀ c now ttl fid p c₁,
       getCachedData c (fundingCacheKey fid) now = (none, c₁) →
       getFunding c now ttl fid (.ok { success := false, payload := p }) = (.error (), c₁)
       ∧ (c₁ = c ∨ c₁ = cacheDelete c (fundingCacheKey fid)))
    ∧ (∀ c now ttl wid p c₁,
       getCachedData c (withdrawalCacheKey wid) now = (none, c₁) →
       getWithdrawal c now ttl wid (.ok { success := false, payload := p }) = (.error (), c₁)
       ∧ (c₁ = c ∨ c₁ = cacheDelete c (withdrawalCacheKey wid))) := by
  constructor
  · intro c now ttl fid p c₁ h
    refine ⟨by simp [getFunding, h], ?_⟩
    have h2 := getCachedData_snd c (fundingCacheKey fid) now
    rw [h] at h2
    exact h2
  · intro c now ttl wid p c₁ h
    refine ⟨by simp [getWithdrawal, h], ?_⟩
    have h2 := getCachedData_snd c (withdrawalCacheKey wid) now
    rw [h] at h2
    exact h2

/-- Witness for C10 on a concrete expired entry: the failed fetch throws
and the lazy eviction by the lookup is the only cache change. -/
theorem single_entity_failure_no_write_witness :
    (getFunding [(fundingCacheKey "f1", ⟨.fundingItem defaultFunding, 5⟩)] 10 300 "f1"
        (.ok { success := false, payload := defaultFunding })
      = (.error (), ([] : CacheMap CacheValue)))
    ∧ (([] : CacheMap CacheValue)
         = [(fundingCacheKey "f1", ⟨CacheValue.fundingItem defaultFunding, 5⟩)]
       ∨ ([] : CacheMap CacheValue)
         = cacheDelete [(fundingCacheKey "f1", ⟨CacheValue.fundingItem defaultFunding, 5⟩)]
             (fundingCacheKey "f1")) :=
  single_entity_failure_no_write.1
    [(fundingCacheKey "f1", ⟨.fundingItem defaultFunding, 5⟩)] 10 300 "f1"
    defaultFunding [] (by decide)

/-- Counterexample to C10 as stated: with an already-expired entry under the
queried key, a `success = false` fetch throws but does NOT leave the cache
exactly as it was — the lookup evicts the expired entry first. -/
theorem getFunding_failed_fetch_mutates_cache :
    (getFunding [(fundingCacheKey "f1", ⟨.fundingItem defaultFunding, 5⟩)] 10 300 "f1"
        (.ok { success := false, payload := defaultFunding })).2 = ([] : CacheMap CacheValue)
    ∧ ([] : CacheMap CacheValue)
        ≠ [(fundingCacheKey "f1", ⟨CacheValue.fundingItem defaultFunding, 5⟩)] := by
  constructor
  · decide
  · decide

/-! ### Export-loop step lemmas -/

theorem exportLoopAux_throw (rest : List PageResult) (marker : Option String)
    (acc : List Funding) (log : List (Option String)) :
    exportLoopAux (.throw :: rest) marker acc log
      = { collected := acc, requests := log ++ [marker], outcome := .threw } := rfl

theorem exportLoopAux_break (r : FundingListResponse) (rest : List PageResult)
    (marker : Option String) (acc : List Funding) (log : List (Option String))
    (hb : isBreakPage r = true) :
    exportLoopAux (.resp r :: rest) marker acc log
      = { collected := acc, requests := log ++ [marker], outcome := .finished } := by
  have hb' : (!r.success || r.payload.isNone) = true := hb
  simp [exportLoopAux, hb']

theorem exportLoopAux_small_page (r : FundingListResponse) (rest : List PageResult)
    (marker : Option String) (acc : List Funding) (log : List (Option String))
    (items : List Funding) (hs : r.success = true) (hp : r.payload = some items)
    (hlen : (items.length == 100) = false) :
    exportLoopAux (.resp r :: rest) marker acc log
      = { collected := acc ++ items, requests := log ++ [marker], outcome := .finished } := by
  simp [exportLoopAux, hs, hp, hlen]

theorem exportLoopAux_full_page (r : FundingListResponse) (rest : List PageResult)
    (marker : Option String) (acc : List Funding) (log : List (Option String))
    (items : List Funding) (lastItem : Funding) (hs : r.success = true)
    (hp : r.payload = some items) (hlen : items.length = 100)
    (hlast : items.getLast? = some lastItem) (hfid : lastItem.fid ≠ "") :
    exportLoopAux (.resp r :: rest) marker acc log
      = exportLoopAux rest (some lastItem.fid) (acc ++ items) (log ++ [marker]) := by
  have hget : items[items.length - 1]? = some lastItem := by
    rw [← List.getLast?_eq_getElem?]
    exact hlast
  have hbeq : (items.length == 100) = true := by simp [hlen]
  simp [exportLoopAux, hs, hp, hbeq, hget, hfid]

theorem exportLoopAux_full_page_empty_fid (r : FundingListResponse)
    (rest : List PageResult) (marker : Option String) (acc : List Funding)
    (log : List (Option String)) (items : List Funding) (lastItem : Funding)
    (hs : r.success = true) (hp : r.payload = some items) (hlen : items.length = 100)
    (hlast : items.getLast? = some lastItem) (hfid : lastItem.fid = "") :
    exportLoopAux (.resp r :: rest) marker acc log
      = { collected := acc ++ items, requests := log ++ [marker], outcome := .finished } := by
  have hget : items[items.length - 1]? = some lastItem := by
    rw [← List.getLast?_eq_getElem?]
    exact hlast
  have hbeq : (items.length == 100) = true := by simp [hlen]
  simp [exportLoopAux, hs, hp, hbeq, hget, hfid]

theorem isContinuingPage_elim (r : FundingListResponse)
    (hc : isContinuingPage r = true) :
    ∃ items lastItem, r.success = true ∧ r.payload = some items ∧ items.length = 100
      ∧ items.getLast? = some lastItem ∧ lastItem.fid ≠ "" := by
  unfold isContinuingPage at hc
  rcases hpay : r.payload with _ | items
  · rw [hpay] at hc
    simp at hc
  · rw [hpay] at hc
    simp only [Bool.and_eq_true, Option.getD_some] at hc
    obtain ⟨⟨⟨hs, -⟩, hlen⟩, hlast⟩ := hc
    rcases hl : items.getLast? with _ | lastItem
    · rw [hl] at hlast
      simp at hlast
    · rw [hl] at hlast
      exact ⟨items, lastItem, hs, rfl, by simpa using hlen, hl, by simpa using hlast⟩

/-- Running the loop across a block of continuing pages appends their items
in order and issues one request per page. -/
theorem exportLoopAux_good_run (good : List FundingListResponse)
    (tail : List PageResult) :
    ∀ marker acc log, (∀ r ∈ good, isContinuingPage r = true) →
    ∃ m' lg, exportLoopAux (good.map PageResult.resp ++ tail) marker acc log
        = exportLoopAux tail m' (acc ++ joinPages good) (log ++ lg)
      ∧ lg.length = good.length := by
  induction good with
  | nil =>
    intro marker acc log _
    exact ⟨marker, [], by simp [joinPages], rfl⟩
  | cons r rs ih =>
    intro marker acc log hg
    obtain ⟨items, lastItem, hs, hp, hlen, hlast, hfid⟩ :=
      isContinuingPage_elim r (hg r (by simp))
    have hstep := exportLoopAux_full_page r (rs.map PageResult.resp ++ tail)
      marker acc log items lastItem hs hp hlen hlast hfid
    obtain ⟨m', lg, heq, hlg⟩ := ih (some lastItem.fid) (acc ++ items) (log ++ [marker])
      (fun p hp' => hg p (by simp [hp']))
    refine ⟨m', marker :: lg, ?_, by simp [hlg]⟩
    rw [List.map_cons, List.cons_append, hstep, heq]
    have hitems : pageItems r = items := by simp [pageItems, hp]
    simp [joinPages, hitems, List.flatMap_cons]

/-- C2 (amended): when a page call returns an envelope with `ok = false` (or
a missing payload), the loop terminates immediately and the tool delivers
exactly the items collected from all earlier successful pages (CSV when
non-empty, the no-data message when empty).  When a page call throws,
however, the loop terminates but control lands in the catch block of the tool:
the caller receives only an error message and the already-collected items
are discarded. -/
theorem export_partial_failure :
    (∀ good bad rest dateMillis renderLocal,
       (∀ r ∈ good, isContinuingPage r = true) → isBreakPage bad = true →
       (exportLoop (good.map PageResult.resp ++ PageResult.resp bad :: rest)).collected
         = joinPages good
       ∧ (exportLoop (good.map PageResult.resp ++ PageResult.resp bad :: rest)).outcome
         = LoopOutcome.finished
       ∧ (exportLoop (good.map PageResult.resp ++ PageResult.resp bad :: rest)).requests.length
         = good.length + 1
       ∧ export_fundings dateMillis renderLocal
           (good.map PageResult.resp ++ PageResult.resp bad :: rest)
         = (if (joinPages good).length == 0 then ToolOutcome.noData
            else ToolOutcome.exported (csvContent dateMillis renderLocal (joinPages good))
                   (joinPages good).length))
    ∧ (∀ good rest dateMillis renderLocal,
       (∀ r ∈ good, isContinuingPage r = true) →
       (exportLoop (good.map PageResult.resp ++ PageResult.throw :: rest)).collected
         = joinPages good
       ∧ (exportLoop (good.map PageResult.resp ++ PageResult.throw :: rest)).outcome
         = LoopOutcome.threw
       ∧ export_fundings dateMillis renderLocal
           (good.map PageResult.resp ++ PageResult.throw :: rest)
         = ToolOutcome.errorText) := by
  constructor
  · intro good bad rest dateMillis renderLocal hg hb
    obtain ⟨m', lg, heq, hlg⟩ :=
      exportLoopAux_good_run good (PageResult.resp bad :: rest) none [] [] hg
    simp only [List.nil_append] at heq
    have hrun : exportLoop (good.map PageResult.resp ++ PageResult.resp bad :: rest)
        = { collected := joinPages good, requests := lg ++ [m']
          , outcome := LoopOutcome.finished } := by
      unfold exportLoop
      rw [heq, exportLoopAux_break bad rest m' (joinPages good) lg hb]
    refine ⟨by rw [hrun], by rw [hrun], by rw [hrun]; simp [hlg], ?_⟩
    unfold export_fundings
    rw [hrun]
  · intro good rest dateMillis renderLocal hg
    obtain ⟨m', lg, heq, hlg⟩ :=
      exportLoopAux_good_run good (PageResult.throw :: rest) none [] [] hg
    simp only [List.nil_append] at heq
    have hrun : exportLoop (good.map PageResult.resp ++ PageResult.throw :: rest)
        = { collected := joinPages good, requests := lg ++ [m']
          , outcome := LoopOutcome.threw } := by
      unfold exportLoop
      rw [heq, exportLoopAux_throw rest m' (joinPages good) lg]
    refine ⟨by rw [hrun], by rw [hrun], ?_⟩
    unfold export_fundings
    rw [hrun]

/-- Witness for C2: one full successful page followed by an `ok = false`
page ends the loop with the 100 collected items delivered as CSV. -/
theorem export_partial_failure_witness :
    (exportLoop [PageResult.resp { success := true, payload := some (fixturePage 100 "a") },
                 PageResult.resp { success := false, payload := some [] }]).collected
      = joinPages [{ success := true, payload := some (fixturePage 100 "a") }]
    ∧ (exportLoop [PageResult.resp { success := true, payload := some (fixturePage 100 "a") },
                   PageResult.resp { success := false, payload := some [] }]).outcome
      = LoopOutcome.finished
    ∧ (exportLoop [PageResult.resp { success := true, payload := some (fixturePage 100 "a") },
                   PageResult.resp { success := false, payload := some [] }]).requests.length
      = 2
    ∧ export_fundings (fun _ => 0) (fun _ => "")
        [PageResult.resp { success := true, payload := some (fixturePage 100 "a") },
         PageResult.resp { success := false, payload := some [] }]
      = (if (joinPages [{ success := true, payload := some (fixturePage 100 "a") }]).length == 0
         then ToolOutcome.noData
         else ToolOutcome.exported
                (csvContent (fun _ => 0) (fun _ => "")
                  (joinPages [{ success := true, payload := some (fixturePage 100 "a") }]))
                (joinPages [{ success := true, payload := some (fixturePage 100 "a") }]).length) :=
  export_partial_failure.1 [{ success := true, payload := some (fixturePage 100 "a") }]
    { success := false, payload := some [] } [] (fun _ => 0) (fun _ => "")
    (by decide) (by decide)

/-- Counterexample to C2 as stated: the second page call throws after a full
first page; 100 items had been collected, but the result of the tool is only an
error message — the collected data is not delivered. -/
theorem export_throw_discards_collected :
    (exportLoop [PageResult.resp { success := true, payload := some (fixturePage 100 "a") },
                 PageResult.throw]).collected.length = 100
    ∧ (exportLoop [PageResult.resp { success := true, payload := some (fixturePage 100 "a") },
                   PageResult.throw]).outcome = LoopOutcome.threw
    ∧ export_fundings (fun _ => 0) (fun _ => "")
        [PageResult.resp { success := true, payload := some (fixturePage 100 "a") },
         PageResult.throw]
      = ToolOutcome.errorText := by
  refine ⟨by decide, by decide, by decide⟩

/-- C3 (amended): a successful page with strictly fewer than 100 items ends
the loop after appending it; a successful page with exactly 100 items whose
last fid is non-empty sets the marker to that fid and continues; a full page
whose last fid is the empty string also ends the loop (JS string falsiness
in `while (marker)`).  On the mock source of the spec with pages of sizes
[100, 100, 37] the loop issues exactly 3 requests, with markers
[none, "a", "b"], and collects exactly 237 items in page order. -/
theorem pagination_step_and_termination :
    (∀ r rest marker acc log items, r.success = true → r.payload = some items →
       items.length < 100 →
       exportLoopAux (PageResult.resp r :: rest) marker acc log
         = { collected := acc ++ items, requests := log ++ [marker]
           , outcome := LoopOutcome.finished })
    ∧ (∀ r rest marker acc log items lastItem, r.success = true →
       r.payload = some items → items.length = 100 → items.getLast? = some lastItem →
       lastItem.fid ≠ "" →
       exportLoopAux (PageResult.resp r :: rest) marker acc log
         = exportLoopAux rest (some lastItem.fid) (acc ++ items) (log ++ [marker]))
    ∧ (∀ r rest marker acc log items lastItem, r.success = true →
       r.payload = some items → items.length = 100 → items.getLast? = some lastItem →
       lastItem.fid = "" →
       exportLoopAux (PageResult.resp r :: rest) marker acc log
         = { collected := acc ++ items, requests := log ++ [marker]
           , outcome := LoopOutcome.finished })
    ∧ (exportLoop fixtureScript237).requests = [none, some "a", some "b"]
    ∧ (exportLoop fixtureScript237).collected
        = fixturePage 100 "a" ++ fixturePage 100 "b" ++ fixturePage 37 "c"
    ∧ (exportLoop fixtureScript237).collected.length = 237
    ∧ (exportLoop fixtureScript237).outcome = LoopOutcome.finished := by
  refine ⟨?_, ?_, ?_, by decide, by decide, by decide, by decide⟩
  · intro r rest marker acc log items hs hp hlt
    exact exportLoopAux_small_page r rest marker acc log items hs hp
      (by simp [Nat.ne_of_lt hlt])
  · intro r rest marker acc log items lastItem hs hp hlen hlast hfid
    exact exportLoopAux_full_page r rest marker acc log items lastItem hs hp hlen hlast hfid
  · intro r rest marker acc log items lastItem hs hp hlen hlast hfid
    exact exportLoopAux_full_page_empty_fid r rest marker acc log items lastItem hs hp hlen
      hlast hfid

/-- Witness for C3: a short page of 37 items ends the loop immediately. -/
theorem pagination_step_and_termination_witness :
    exportLoopAux [PageResult.resp { success := true, payload := some (fixturePage 37 "c") }]
        none [] []
      = { collected := fixturePage 37 "c", requests := [none]
        , outcome := LoopOutcome.finished } :=
  pagination_step_and_termination.1 { success := true, payload := some (fixturePage 37 "c") }
    [] none [] [] (fixturePage 37 "c") rfl rfl (by decide)

/-- Counterexample to C3 as stated: a full page of exactly 100 items whose
last fid is the empty string does NOT continue — the computed marker `""` is
falsy in `while (marker)`, so only 1 request is issued although the page was
not short. -/
theorem full_page_empty_fid_stops_loop :
    (fixturePage 100 "").length = 100
    ∧ (exportLoop [PageResult.resp { success := true, payload := some (fixturePage 100 "") },
                   PageResult.resp { success := true, payload := some (fixturePage 37 "c") }]
        ).requests.length = 1
    ∧ (exportLoop [PageResult.resp { success := true, payload := some (fixturePage 100 "") },
                   PageResult.resp { success := true, payload := some (fixturePage 37 "c") }]
        ).outcome = LoopOutcome.finished := by
  refine ⟨by decide, by decide, by decide⟩

/-- Loop invariant: the loop never crashes on the last-element access, and
every marker it sends is the fid of an item in the final collection. -/
theorem exportLoopAux_safety : ∀ (script : List PageResult) (marker : Option String)
    (acc : List Funding) (log : List (Option String)),
    (∀ s, some s ∈ log → ∃ f ∈ acc, f.fid = s) →
    (∀ s, marker = some s → ∃ f ∈ acc, f.fid = s) →
    (exportLoopAux script marker acc log).outcome ≠ LoopOutcome.crashed
    ∧ (∀ s, some s ∈ (exportLoopAux script marker acc log).requests →
        ∃ f ∈ (exportLoopAux script marker acc log).collected, f.fid = s) := by
  intro script
  induction script with
  | nil =>
    intro marker acc log h1 h2
    exact ⟨by simp [exportLoopAux], fun s hs => h1 s hs⟩
  | cons pr rest ih =>
    intro marker acc log h1 h2
    have hlogstep : ∀ s : String, some s ∈ log ++ [marker] → ∃ f ∈ acc, f.fid = s := by
      intro s hs
      rcases List.mem_append.mp hs with hs | hs
      · exact h1 s hs
      · exact h2 s (List.mem_singleton.mp hs).symm
    have hlift : ∀ (items : List Funding) (s : String),
        (∃ f ∈ acc, f.fid = s) → ∃ f ∈ acc ++ items, f.fid = s := by
      intro items s hf
      obtain ⟨f, hmem, hfid⟩ := hf
      exact ⟨f, List.mem_append.mpr (Or.inl hmem), hfid⟩
    cases pr with
    | throw =>
      rw [exportLoopAux_throw]
      exact ⟨by simp, fun s hs => hlogstep s hs⟩
    | resp r =>
      by_cases hb : (!r.success || r.payload.isNone) = true
      · rw [exportLoopAux_break r rest marker acc log hb]
        exact ⟨by simp, fun s hs => hlogstep s hs⟩
      · simp only [Bool.or_eq_true, Bool.not_eq_true', Option.isNone_iff_eq_none, not_or] at hb
        obtain ⟨hsucc0, hpaynone⟩ := hb
        have hsucc : r.success = true := by
          cases hq : r.success
          · exact absurd hq hsucc0
          · rfl
        rcases hpayload : r.payload with _ | items
        · exact absurd hpayload hpaynone
        by_cases hlen : (items.length == 100) = true
        · have hlen100 : items.length = 100 := by simpa using hlen
          cases hget : items[items.length - 1]? with
          | none =>
            have : items.length ≤ items.length - 1 := by
              have := hget
              rw [List.getElem?_eq_none_iff] at this
              exact this
            omega
          | some lastItem =>
            have hlast : items.getLast? = some lastItem := by
              rw [List.getLast?_eq_getElem?]
              exact hget
            by_cases hfid : lastItem.fid = ""
            · rw [exportLoopAux_full_page_empty_fid r rest marker acc log items lastItem
                hsucc hpayload hlen100 hlast hfid]
              exact ⟨by simp, fun s hs => hlift items s (hlogstep s hs)⟩
            · rw [exportLoopAux_full_page r rest marker acc log items lastItem
                hsucc hpayload hlen100 hlast hfid]
              refine ih (some lastItem.fid) (acc ++ items) (log ++ [marker])
                (fun s hs => hlift items s (hlogstep s hs)) ?_
              intro s hs
              have hsfid : s = lastItem.fid := (Option.some_inj.mp hs).symm
              refine ⟨lastItem, ?_, hsfid.symm⟩
              exact List.mem_append.mpr (Or.inr (List.getElem?_mem hget))
        · have hlen' : (items.length == 100) = false := Bool.eq_false_iff.mpr hlen
          rw [exportLoopAux_small_page r rest marker acc log items hsucc hpayload hlen']
          exact ⟨by simp, fun s hs => hlift items s (hlogstep s hs)⟩

/-- C9: the last-element access `payload[payload.length - 1].fid` is reached
only on pages of exactly 100 items, so it never goes out of bounds (the loop
never reaches the `crashed` outcome), and every marker actually sent equals
the fid of an item that was appended to the collection. -/
theorem marker_access_safety (script : List PageResult) :
    (exportLoop script).outcome ≠ LoopOutcome.crashed
    ∧ ∀ s, some s ∈ (exportLoop script).requests →
        ∃ f ∈ (exportLoop script).collected, f.fid = s :=
  exportLoopAux_safety script none [] [] (by simp) (by simp)

/-- Witness for C9 on a concrete three-page script. -/
theorem marker_access_safety_witness :
    (exportLoop fixtureScript237).outcome ≠ LoopOutcome.crashed
    ∧ ∀ s, some s ∈ (exportLoop fixtureScript237).requests →
        ∃ f ∈ (exportLoop fixtureScript237).collected, f.fid = s :=
  marker_access_safety fixtureScript237

/-- C4: the rendered CSV is exactly the fixed header line followed by one
row per funding in collection order, where gross and net amount are the
amount string of the funding copied verbatim (never parsed to a number), fee is
the literal string `"0"`, and the timestamp is the Unix epoch seconds
(floored) of the instant parsed from `created_at`. -/
theorem csv_render_spec (dateMillis : String → Int) (renderLocal : Int → String)
    (fs : List Funding) (_hne : fs ≠ []) :
    csvContent dateMillis renderLocal fs
      = "method,currency,gross,fee,net amount,timestamp,datetime\n" ++
          String.intercalate "\n" (fs.map (fun f =>
            f.method ++ "," ++ f.currency ++ "," ++ f.amount ++ "," ++ "0" ++ "," ++
              f.amount ++ "," ++ toString (Int.fdiv (dateMillis f.created_at) 1000) ++ "," ++
              removeFirstComma (renderLocal (dateMillis f.created_at))))
    ∧ (fs.map (csvRow dateMillis renderLocal)).length = fs.length :=
  ⟨rfl, by simp⟩

/-- Witness for C4 on two concrete fundings with a fixed parse and locale
rendering. -/
theorem csv_render_spec_witness :
    csvContent (fun _ => (1754963642000 : Int)) (fun _ => "08/12/2025, 01:54:02")
        (fixturePage 2 "x")
      = "method,currency,gross,fee,net amount,timestamp,datetime\n" ++
          String.intercalate "\n" ((fixturePage 2 "x").map (fun f =>
            f.method ++ "," ++ f.currency ++ "," ++ f.amount ++ "," ++ "0" ++ "," ++
              f.amount ++ "," ++ toString (Int.fdiv (1754963642000 : Int) 1000) ++ "," ++
              removeFirstComma "08/12/2025, 01:54:02"))
    ∧ ((fixturePage 2 "x").map (csvRow (fun _ => (1754963642000 : Int))
          (fun _ => "08/12/2025, 01:54:02"))).length = (fixturePage 2 "x").length :=
  csv_render_spec (fun _ => (1754963642000 : Int)) (fun _ => "08/12/2025, 01:54:02")
    (fixturePage 2 "x") (by decide)

end BitsoMcp
